import Mathlib

/-!
Shallow embedding of the zod-openapi schema-synthesis core.

Source files embedded:
* src/src/create/schema/index.ts — reference-registry entry points
  (createSchema dispatcher, createRegisteredSchema, createSchemaOrRef,
  createComponentSchemaRef), placed in namespace OldApi below.
* src/src/create/schema/parsers/object.ts — the object composer
  (createObjectSchema, createExtendedSchema, createDiffOpts, createShapeDiff,
  createObjectSchemaFromShape, mapRequired, mapProperties).

Collaborators of object.ts that are not part of the two source files
(createSchemaObject, isOptionalSchema, flattenEffects, createComponentSchemaRef
with a prefix, the identity-keyed component registry, and the per-primitive
leaf generators) are modelled from the specification; each such definition says
so in its doc comment.

JavaScript conventions embedded as follows: object identity is a stable
numeric identifier carried by every node (spec section 9: arena/identifier
pattern); thrown errors are Except values; the shared mutable registry is
threaded state; recursion is fueled, with Option.none meaning the fuel ran
out before the (always terminating on acyclic input) recursion finished.
-/

namespace ZodToOpenapi

/-- Input/output interpretation mode carried by the Recursion State. -/
inductive Mode where
  | input
  | output
deriving DecidableEq, Repr

/-- Unknown-keys policy of an object node. -/
inductive UnknownKeysParam where
  | strict
  | strip
  | passthrough
deriving DecidableEq, Repr

/-- Kind of a recorded input/output divergence record. -/
inductive EffectKind where
  | schemaKind
  | componentKind
deriving DecidableEq, Repr

/-- One point of input/output divergence: kind, direction observed (absent for
component-kind records), originating node identity, and traversal path. -/
structure Effect where
  kind : EffectKind
  direction : Option Mode
  zodId : Nat
  path : List String
deriving DecidableEq, Repr

mutual
/-- A schema node: identity, optional registry name (openapi ref), optional
manual-override type (openapi type), and the variant payload. -/
inductive ZodNode where
  | mk (nid : Nat) (refName : Option String) (manualType : Option String) (nodeDef : ZodDef)

/-- The variant payload of a schema node. `zcustom` stands for any variant the
dispatcher has no arm for (e.g. a custom type). -/
inductive ZodDef where
  | zstring
  | znumber
  | zboolean
  | znever
  | zundefined
  | zoptional (inner : ZodNode)
  | zdefault (inner : ZodNode)
  | zobject (shape : List (String × ZodNode)) (unknownKeys : UnknownKeysParam)
      (catchall : ZodNode) (extendsBase : Option ZodNode)
  | zcustom
end

def ZodNode.nid : ZodNode → Nat
  | .mk i _ _ _ => i

def ZodNode.refName : ZodNode → Option String
  | .mk _ r _ _ => r

def ZodNode.manualType : ZodNode → Option String
  | .mk _ _ t _ => t

def ZodNode.nodeDef : ZodNode → ZodDef
  | .mk _ _ _ d => d

/-- Field shape of an object node (empty for non-objects). -/
def ZodNode.shapeOf (n : ZodNode) : List (String × ZodNode) :=
  match n.nodeDef with
  | .zobject s _ _ _ => s
  | _ => []

/-- Unknown-keys policy of an object node (strip for non-objects). -/
def ZodNode.unknownKeysOf (n : ZodNode) : UnknownKeysParam :=
  match n.nodeDef with
  | .zobject _ u _ _ => u
  | _ => .strip

/-- Catch-all node of an object node (a never node for non-objects). -/
def ZodNode.catchallOf (n : ZodNode) : ZodNode :=
  match n.nodeDef with
  | .zobject _ _ c _ => c
  | _ => ZodNode.mk 0 none none .znever

/-- Extension base of an object node, from its extend metadata. -/
def ZodNode.extendsBaseOf (n : ZodNode) : Option ZodNode :=
  match n.nodeDef with
  | .zobject _ _ _ e => e
  | _ => none

/-- Embedding of isZodType(x, ZodNever). -/
def isNeverN (n : ZodNode) : Bool :=
  match n.nodeDef with
  | .znever => true
  | _ => false

/-- Embedding of isZodType(x, ZodUndefined). -/
def isUndefN (n : ZodNode) : Bool :=
  match n.nodeDef with
  | .zundefined => true
  | _ => false

/-- True when the node is an optional wrapper. -/
def isOptionalWrapper (n : ZodNode) : Bool :=
  match n.nodeDef with
  | .zoptional _ => true
  | _ => false

/-- True when the node is a default wrapper. -/
def isDefaultWrapper (n : ZodNode) : Bool :=
  match n.nodeDef with
  | .zdefault _ => true
  | _ => false

/-- A schema-document fragment: the keys of the output object model that the
embedded code reads or writes (type, properties, required,
additionalProperties as either the boolean false or a nested fragment, allOf,
and the reference string). An absent key is None. -/
inductive SchemaObject where
  | mk (ty : Option String)
       (props : Option (List (String × SchemaObject)))
       (req : Option (List String))
       (addProps : Option (Bool ⊕ SchemaObject))
       (allOfL : Option (List SchemaObject))
       (refS : Option String)

def SchemaObject.ty : SchemaObject → Option String
  | .mk t _ _ _ _ _ => t

def SchemaObject.props : SchemaObject → Option (List (String × SchemaObject))
  | .mk _ p _ _ _ _ => p

def SchemaObject.req : SchemaObject → Option (List String)
  | .mk _ _ r _ _ _ => r

def SchemaObject.addProps : SchemaObject → Option (Bool ⊕ SchemaObject)
  | .mk _ _ _ a _ _ => a

def SchemaObject.allOfL : SchemaObject → Option (List SchemaObject)
  | .mk _ _ _ _ l _ => l

def SchemaObject.refS : SchemaObject → Option String
  | .mk _ _ _ _ _ r => r

/-- The empty fragment, as returned by the dispatcher's manual-override arm. -/
def emptyObj : SchemaObject := .mk none none none none none none

/-- A primitive leaf fragment carrying only a type key. -/
def leafObj (t : String) : SchemaObject := .mk (some t) none none none none none

/-- A pure reference fragment carrying only the reference string. -/
def refOnly (r : String) : SchemaObject := .mk none none none none none (some r)

/-- Set-or-replace on an insertion-ordered association list, the behaviour of
assigning one key of a JavaScript object or of Map.set. -/
def setAssoc {α β : Type} [BEq α] (l : List (α × β)) (k : α) (v : β) : List (α × β) :=
  if (List.lookup k l).isSome then
    l.map (fun p => if p.1 == k then (k, v) else p)
  else
    l ++ [(k, v)]

namespace OldApi

/-- Structured form of the errors thrown by the registry entry points:
the unrecognized-variant error (carrying the rendering of the offending node:
its variant name and identity), the duplicate-registration error, and the
internal unexpected-reference error. -/
inductive OldError where
  | unknownSchema (variant : String) (id : Nat)
  | duplicateRef (ref : String)
  | unexpectedReference
deriving DecidableEq, Repr

/-- Rendering of a node's variant, used in the unrecognized-variant error. -/
def variantName (n : ZodNode) : String :=
  match n.nodeDef with
  | .zstring => "ZodString"
  | .znumber => "ZodNumber"
  | .zboolean => "ZodBoolean"
  | .znever => "ZodNever"
  | .zundefined => "ZodUndefined"
  | .zoptional _ => "ZodOptional"
  | .zdefault _ => "ZodDefault"
  | .zobject _ _ _ _ => "ZodObject"
  | .zcustom => "ZodCustom"

/-- True when the dispatcher in src/src/create/schema/index.ts has an
instanceof arm for the node's variant. -/
def matchesArm (n : ZodNode) : Bool :=
  match n.nodeDef with
  | .znever | .zundefined | .zcustom => false
  | _ => true

/-- Modelled from the spec: the components store used by the registry entry
points of src/src/create/schema/index.ts (its defining module is not among the
source files; the source only reads and writes components.schema entries of
shape (schemaObject, zodSchema)). Keys are registered names, values pair the
completed fragment with the registered node's identity. The genCount field
instruments the store with the number of schema-generator invocations, so the
idempotent-registration property (spec section 8) is observable. -/
structure ComponentsOld where
  schema : List (String × (SchemaObject × Nat))
  genCount : Nat

/-- Embedding of createComponentSchemaRef (src/src/create/schema/index.ts). -/
def createComponentSchemaRef (schemaRef : String) : String :=
  "#/components/schemas/" ++ schemaRef

mutual
/-- Embedding of createSchema (src/src/create/schema/index.ts): the type
dispatcher. The leaf arms (string/number/boolean) are the out-of-scope leaf
generators, modelled from the spec as one-shot fragment copies; the
optional/default arms are modelled from the spec as synthesis of the wrapped
node; the object arm is modelled from the spec (section 4.2) since the object
composer matching this module's registry generation is not among the source
files. A variant with no arm falls through to the manual-override check: with
no manual type it is a hard error, otherwise the empty fragment is returned. -/
def createSchema : Nat → ZodNode → ComponentsOld →
    Option (Except OldError SchemaObject × ComponentsOld)
  | 0, _, _ => none
  | fuel+1, n, c =>
    match n.nodeDef with
    | .zstring => some (.ok (leafObj "string"), c)
    | .znumber => some (.ok (leafObj "number"), c)
    | .zboolean => some (.ok (leafObj "boolean"), c)
    | .zoptional inner => createSchemaOrRef fuel inner c
    | .zdefault inner => createSchemaOrRef fuel inner c
    | .zobject shape uk ca _ => createObjectSchema fuel shape uk ca c
    | _ =>
      match n.manualType with
      | none => some (.error (.unknownSchema (variantName n) n.nid), c)
      | some _ => some (.ok emptyObj, c)

/-- Modelled from the spec (section 4.2): the object composer of the registry
generation of src/src/create/schema/index.ts (its object module is not among
the source files). Fields in declaration order; never/undefined sentinels
contribute neither a property nor a required entry; other fields recurse
through the dispatch entry point; strict policy adds additionalProperties
false, a non-never catch-all is synthesized as the additionalProperties
fragment. -/
def createObjectSchema : Nat → List (String × ZodNode) → UnknownKeysParam → ZodNode →
    ComponentsOld → Option (Except OldError SchemaObject × ComponentsOld)
  | 0, _, _, _, _ => none
  | fuel+1, shape, uk, ca, c =>
    match oldProps fuel shape c with
    | none => none
    | some (.error e, c1) => some (.error e, c1)
    | some (.ok ps, c1) =>
      match (if isNeverN ca then some (.ok none, c1)
             else
               match createSchemaOrRef fuel ca c1 with
               | none => none
               | some (.error e, c2) => some (.error e, c2)
               | some (.ok s, c2) => some (.ok (some s), c2) :
               Option (Except OldError (Option SchemaObject) × ComponentsOld)) with
      | none => none
      | some (.error e, c2) => some (.error e, c2)
      | some (.ok apo, c2) =>
        let reqs := (shape.filter
          (fun kv => !(isOptionalWrapper kv.2 || isNeverN kv.2 || isUndefN kv.2))).map Prod.fst
        some (.ok (SchemaObject.mk (some "object")
          (if ps.isEmpty then none else some ps)
          (if reqs.isEmpty then none else some reqs)
          (match apo with
           | some s => some (Sum.inr s)
           | none => if uk = .strict then some (Sum.inl false) else none)
          none none), c2)

/-- Modelled from the spec: property collection of the object composer above;
sentinel fields are skipped, the rest are synthesized in declaration order. -/
def oldProps : Nat → List (String × ZodNode) → ComponentsOld →
    Option (Except OldError (List (String × SchemaObject)) × ComponentsOld)
  | 0, _, _ => none
  | _+1, [], c => some (.ok [], c)
  | fuel+1, (k, v) :: rest, c =>
    if isNeverN v || isUndefN v then
      oldProps fuel rest c
    else
      match createSchemaOrRef fuel v c with
      | none => none
      | some (.error e, c1) => some (.error e, c1)
      | some (.ok s, c1) =>
        match oldProps fuel rest c1 with
        | none => none
        | some (.error e, c2) => some (.error e, c2)
        | some (.ok ps, c2) => some (.ok ((k, s) :: ps), c2)

/-- Modelled from the spec: createSchemaWithMetadata (not among the source
files); metadata and description merging is out of scope (spec section 1), so
it reduces to running the dispatcher, counted as one generator invocation. -/
def createSchemaWithMetadata : Nat → ZodNode → ComponentsOld →
    Option (Except OldError SchemaObject × ComponentsOld)
  | 0, _, _ => none
  | fuel+1, n, c => createSchema fuel n { c with genCount := c.genCount + 1 }

/-- Embedding of createRegisteredSchema (src/src/create/schema/index.ts):
an existing entry under the same name either errors on a different node
identity or returns the reference without re-running the generator; a fresh
name runs the generator, rejects reference results, stores the fragment and
returns the reference. -/
def createRegisteredSchema : Nat → ZodNode → String → ComponentsOld →
    Option (Except OldError SchemaObject × ComponentsOld)
  | 0, _, _, _ => none
  | fuel+1, n, r, c =>
    match List.lookup r c.schema with
    | some (_, zid) =>
      if zid ≠ n.nid then some (.error (.duplicateRef r), c)
      else some (.ok (refOnly (createComponentSchemaRef r)), c)
    | none =>
      match createSchemaWithMetadata fuel n c with
      | none => none
      | some (.error e, c1) => some (.error e, c1)
      | some (.ok s, c1) =>
        if s.refS.isSome then some (.error .unexpectedReference, c1)
        else some (.ok (refOnly (createComponentSchemaRef r)),
          { c1 with schema := setAssoc c1.schema r (s, n.nid) })

/-- Embedding of createSchemaOrRef (src/src/create/schema/index.ts). -/
def createSchemaOrRef : Nat → ZodNode → ComponentsOld →
    Option (Except OldError SchemaObject × ComponentsOld)
  | 0, _, _ => none
  | fuel+1, n, c =>
    match n.refName with
    | some r => createRegisteredSchema fuel n r c
    | none => createSchemaWithMetadata fuel n c
end

end OldApi

/-- Lifecycle entry of the identity-keyed component registry, modelled from the
spec (section 3/4.4; its defining module is not among the source files, but
src/src/create/schema/parsers/object.ts reads the fields ref, type and
effects of an entry). complete is false while the entry is in-progress; the
fragment and effects are stored on completion. -/
structure SchemaComponent where
  ref : String
  complete : Bool
  effects : Option (List Effect)
  schemaObj : Option SchemaObject

/-- The identity-keyed registry map, ordered by insertion like a JS Map. -/
abbrev ComponentsMap := List (Nat × SchemaComponent)

/-- The Recursion State of the spec (section 2): registry, traversal path,
active mode and document-wide options (reference path prefix). Path pushes are
scoped to each call in the source, so the embedded operations return only the
updated registry and read path/mode from the state they were given. -/
structure SchemaState where
  schemas : ComponentsMap
  path : List String
  mode : Mode
  refPrefix : Option String

/-- Tag distinguishing a plain fragment result from a reference result. -/
inductive SchemaResultKind where
  | schemaType
  | refType
deriving DecidableEq, Repr

/-- The Result Fragment of object.ts: kind tag, fragment, and the optional
effect list (absent when no divergence was recorded). -/
structure Schema where
  stype : SchemaResultKind
  schema : SchemaObject
  effects : Option (List Effect)

/-- Modelled from the spec (section 4.3): flattenEffects concatenates the
effect lists of children in order, skipping absent entries; an empty result is
represented as an absent effect list. -/
def flattenEffects (l : List (Option (List Effect))) : Option (List Effect) :=
  let r := (l.filterMap id).flatten
  if r.isEmpty then none else some r

/-- The effect list denoted by an optional effect list. -/
def effList (o : Option (List Effect)) : List Effect := o.getD []

/-- Concatenation of a list of optional effect lists. -/
def joinEff (l : List (Option (List Effect))) : List Effect := (l.filterMap id).flatten

/-- Modelled from the spec (section 6): reference formatting is a pure string
function of the registered name and a configurable path prefix defaulting to
the components-schemas prefix. -/
def componentRef (r : String) (pre : Option String) : String :=
  pre.getD "#/components/schemas/" ++ r

/-- Modelled from the spec (section 4.2 step 1 and 2): isOptionalSchema
decides whether a field is left out of the required list and records the
default-wrapper divergence. An optional wrapper is optional; the never and
undefined sentinels contribute no required entry; a default wrapper is
optional exactly in input mode and records a schema-kind effect with the
active mode as direction at the given path; all other nodes are required. -/
def isOptionalSchemaCore (n : ZodNode) (path : List String) (mode : Mode) :
    Bool × Option (List Effect) :=
  match n.nodeDef with
  | .zoptional _ => (true, none)
  | .znever => (true, none)
  | .zundefined => (true, none)
  | .zdefault _ =>
    (decide (mode = Mode.input),
     some [{ kind := .schemaKind, direction := some mode, zodId := n.nid, path := path }])
  | _ => (false, none)

/-- The optionality verdict of isOptionalSchemaCore, which does not depend on
the path. -/
def fieldOptional (n : ZodNode) (mode : Mode) : Bool :=
  (isOptionalSchemaCore n [] mode).1

/-- The fold of mapRequired over the shape entries, with the required-key and
effect-list accumulators of the source's reduce. -/
def mapRequiredGo (path : List String) (mode : Mode) :
    List (String × ZodNode) → List String × List (List Effect) →
      List String × List (List Effect)
  | [], acc => acc
  | kv :: rest, acc =>
    let v := isOptionalSchemaCore kv.2 (path ++ ["property: " ++ kv.1]) mode
    mapRequiredGo path mode rest
      ((if v.1 then acc.1 else acc.1 ++ [kv.1]),
       (match v.2 with
        | some e => acc.2 ++ [e]
        | none => acc.2))

/-- Embedding of mapRequired (object.ts): fold over the shape in declaration
order, pushing the field path segment around each isOptionalSchema call,
collecting non-optional keys and the produced effects. -/
def mapRequiredCore (shape : List (String × ZodNode)) (path : List String) (mode : Mode) :
    List String × Option (List Effect) :=
  let r := mapRequiredGo path mode shape ([], [])
  (r.1, flattenEffects (r.2.map some))

/-- mapRequired with the source signature (shape and Recursion State). -/
def mapRequired (shape : List (String × ZodNode)) (st : SchemaState) :
    List String × Option (List Effect) :=
  mapRequiredCore shape st.path st.mode

/-- The additional-property options record of object.ts. -/
structure AdditionalPropertyOptions where
  unknownKeys : UnknownKeysParam
  catchAll : ZodNode

/-- Embedding of createDiffOpts (object.ts): no diff when the base is strict
or its catch-all is not the never sentinel; otherwise the extension's own
options are kept. -/
def createDiffOpts (baseOpts extendedOpts : AdditionalPropertyOptions) :
    Option AdditionalPropertyOptions :=
  if baseOpts.unknownKeys = .strict ∨ ¬ (isNeverN baseOpts.catchAll) then none
  else some ⟨extendedOpts.unknownKeys, extendedOpts.catchAll⟩

/-- Recursion of createShapeDiff over the extension entries: identical (by
identity) shared keys are skipped, brand-new keys are accumulated, an
overridden shared key aborts the diff. -/
def createShapeDiffGo (baseObj : List (String × ZodNode)) :
    List (String × ZodNode) → List (String × ZodNode) → Option (List (String × ZodNode))
  | [], acc => some acc
  | (k, v) :: rest, acc =>
    match List.lookup k baseObj with
    | some bv => if v.nid = bv.nid then createShapeDiffGo baseObj rest acc else none
    | none => createShapeDiffGo baseObj rest (acc ++ [(k, v)])

/-- Embedding of createShapeDiff (object.ts). -/
def createShapeDiff (baseObj extendedObj : List (String × ZodNode)) :
    Option (List (String × ZodNode)) :=
  createShapeDiffGo baseObj extendedObj []

/-- The accumulator of mapProperties: properties in declaration order and the
per-property effect lists. -/
structure PropertyMap where
  properties : List (String × SchemaObject)
  effects : List (Option (List Effect))

/-- Spread of an object fragment over an object carrying an allOf entry,
embedding the object-literal merge in createExtendedSchema: the diff
fragment's keys win over the allOf key if both are present. -/
def withAllOf (l : List SchemaObject) (s : SchemaObject) : SchemaObject :=
  match s with
  | .mk t p r a ao rf =>
    .mk t p r a (match ao with | some x => some x | none => some l) rf

mutual
/-- Modelled from the spec (sections 2 and 4.4): createSchemaObject, the
dispatch entry point used by object.ts. It pushes the given path segments for
the duration of the call; when the node has a registry entry it returns a
reference immediately (for an in-progress entry additionally recording a
component-kind effect at the current path); when the node requests a name it
marks the entry in-progress, dispatches, stores the completed fragment and
effects and returns a reference carrying those effects; otherwise it just
dispatches. -/
def createSchemaObject : Nat → ZodNode → SchemaState → List String →
    Option (Schema × ComponentsMap)
  | 0, _, _, _ => none
  | fuel+1, node, st, sub =>
    match List.lookup node.nid st.schemas with
    | some comp =>
      if comp.complete then
        some ({ stype := .refType, schema := refOnly (componentRef comp.ref st.refPrefix),
                effects := none }, st.schemas)
      else
        some ({ stype := .refType, schema := refOnly (componentRef comp.ref st.refPrefix),
                effects := some [{ kind := .componentKind, direction := none,
                                   zodId := node.nid, path := st.path ++ sub }] },
              st.schemas)
    | none =>
      match node.refName with
      | some r =>
        match dispatchSchema fuel node
            { st with path := st.path ++ sub,
                      schemas := setAssoc st.schemas node.nid ⟨r, false, none, none⟩ } with
        | none => none
        | some (res, reg2) =>
          some ({ stype := .refType, schema := refOnly (componentRef r st.refPrefix),
                  effects := res.effects },
                setAssoc reg2 node.nid ⟨r, true, res.effects, some res.schema⟩)
      | none =>
        match dispatchSchema fuel node { st with path := st.path ++ sub } with
        | none => none
        | some (res, reg2) => some (res, reg2)

/-- Modelled from the spec (section 4.1): the type dispatcher serving
object.ts. Leaf generators are out-of-scope one-shot copies; wrappers
synthesize their wrapped node; objects go to the embedded object composer.
Variants with no generator fail (conflated with fuel exhaustion here, since no
claim about this dispatcher distinguishes them). -/
def dispatchSchema : Nat → ZodNode → SchemaState → Option (Schema × ComponentsMap)
  | 0, _, _ => none
  | fuel+1, node, st =>
    match node.nodeDef with
    | .zstring =>
      some ({ stype := .schemaType, schema := leafObj "string", effects := none }, st.schemas)
    | .znumber =>
      some ({ stype := .schemaType, schema := leafObj "number", effects := none }, st.schemas)
    | .zboolean =>
      some ({ stype := .schemaType, schema := leafObj "boolean", effects := none }, st.schemas)
    | .zoptional inner => createSchemaObject fuel inner st ["optional"]
    | .zdefault inner => createSchemaObject fuel inner st ["default"]
    | .zobject _ _ _ _ => createObjectSchema fuel node st
    | _ => none

/-- Embedding of createObjectSchema (object.ts): try the extension path first;
when it yields nothing, synthesize the full flat shape with the node's own
unknown-keys policy and catch-all, against the state as mutated by the
attempt. -/
def createObjectSchema : Nat → ZodNode → SchemaState → Option (Schema × ComponentsMap)
  | 0, _, _ => none
  | fuel+1, node, st =>
    match node.nodeDef with
    | .zobject shape uk ca eb =>
      match createExtendedSchema fuel node eb st with
      | none => none
      | some (some res, reg1) => some (res, reg1)
      | some (none, reg1) =>
        createObjectSchemaFromShape fuel shape ⟨uk, ca⟩ { st with schemas := reg1 }
    | _ => none

/-- Embedding of createExtendedSchema (object.ts): with a base present, the
base is synthesized (registering it) when it already has a registry entry or
requests a name; extension then requires a registry entry for the base, a
successful options diff and a successful shape diff; the result merges an
allOf reference to the base into the diff-only fragment, and its effects
concatenate the base's stored effects (or a component-kind effect at the
current path when the base entry is still in-progress) with the diff
fragment's effects. -/
def createExtendedSchema : Nat → ZodNode → Option ZodNode → SchemaState →
    Option (Option Schema × ComponentsMap)
  | 0, _, _, _ => none
  | fuel+1, node, baseO, st =>
    match baseO with
    | none => some (none, st.schemas)
    | some base =>
      match (if (List.lookup base.nid st.schemas).isSome || base.refName.isSome then
               match createSchemaObject fuel base st ["extended schema"] with
               | none => none
               | some (_, reg1) => some reg1
             else some st.schemas : Option ComponentsMap) with
      | none => none
      | some reg1 =>
        match List.lookup base.nid reg1 with
        | none => some (none, reg1)
        | some cc =>
          match createDiffOpts ⟨base.unknownKeysOf, base.catchallOf⟩
              ⟨node.unknownKeysOf, node.catchallOf⟩ with
          | none => some (none, reg1)
          | some dOpts =>
            match createShapeDiff base.shapeOf node.shapeOf with
            | none => some (none, reg1)
            | some dShape =>
              match createObjectSchemaFromShape fuel dShape dOpts
                  { st with schemas := reg1 } with
              | none => none
              | some (ext, reg2) =>
                some (some
                  { stype := .schemaType,
                    schema := withAllOf [refOnly (componentRef cc.ref st.refPrefix)] ext.schema,
                    effects := flattenEffects
                      [ (if cc.complete then cc.effects else some []),
                        (if cc.complete then some []
                         else some [{ kind := .componentKind, direction := none,
                                      zodId := node.nid, path := st.path }]),
                        ext.effects ] }, reg2)

/-- Embedding of createObjectSchemaFromShape (object.ts): properties, then the
required list, then the additional-properties fragment for a non-never
catch-all; the fragment omits an absent property map and an empty required
list, writes additionalProperties false under the strict policy but lets a
synthesized catch-all fragment win over it, and flattens the property,
additional-property and required effects in that order. -/
def createObjectSchemaFromShape : Nat → List (String × ZodNode) →
    AdditionalPropertyOptions → SchemaState → Option (Schema × ComponentsMap)
  | 0, _, _, _ => none
  | fuel+1, shape, opts, st =>
    match mapProperties fuel shape st with
    | none => none
    | some (props, reg1) =>
      let req := mapRequired shape st
      match (if isNeverN opts.catchAll then some (none, reg1)
             else
               match createSchemaObject fuel opts.catchAll { st with schemas := reg1 }
                   ["additional properties"] with
               | none => none
               | some (ap, reg2) => some (some ap, reg2) :
             Option (Option Schema × ComponentsMap)) with
      | none => none
      | some (apo, reg2) =>
        some ({ stype := .schemaType,
                schema := SchemaObject.mk (some "object")
                  (props.map (fun pm => pm.properties))
                  (if req.1.isEmpty then none else some req.1)
                  (match apo with
                    | some ap => some (Sum.inr ap.schema)
                    | none => if opts.unknownKeys = .strict then some (Sum.inl false) else none)
                  none none,
                effects := flattenEffects
                  ((match props with | some pm => pm.effects | none => []) ++
                    [apo.bind (fun ap => ap.effects), req.2]) }, reg2)

/-- Embedding of mapProperties (object.ts): an empty shape yields no property
map at all; otherwise the entries are folded in declaration order. -/
def mapProperties : Nat → List (String × ZodNode) → SchemaState →
    Option (Option PropertyMap × ComponentsMap)
  | 0, _, _ => none
  | fuel+1, shape, st =>
    if shape.isEmpty then some (none, st.schemas)
    else
      match mapPropertiesGo fuel shape st with
      | none => none
      | some (pm, reg) => some (some pm, reg)

/-- The fold of mapProperties: never/undefined sentinel fields are skipped;
each other field is synthesized with its path segment pushed, contributing its
fragment and its effect list. -/
def mapPropertiesGo : Nat → List (String × ZodNode) → SchemaState →
    Option (PropertyMap × ComponentsMap)
  | 0, _, _ => none
  | _+1, [], st => some (⟨[], []⟩, st.schemas)
  | fuel+1, (k, v) :: rest, st =>
    if isNeverN v || isUndefN v then
      mapPropertiesGo fuel rest st
    else
      match createSchemaObject fuel v st ["property: " ++ k] with
      | none => none
      | some (p, reg1) =>
        match mapPropertiesGo fuel rest { st with schemas := reg1 } with
        | none => none
        | some (pm, reg2) =>
          some (⟨(k, p.schema) :: pm.properties, p.effects :: pm.effects⟩, reg2)
end

/-- The required list denoted by a fragment (empty when the key is absent). -/
def fragReq (s : SchemaObject) : List String := s.req.getD []

/-- The property keys denoted by a fragment (empty when the key is absent). -/
def fragPropKeys (s : SchemaObject) : List String := (s.props.getD []).map Prod.fst

def wStr (i : Nat) : ZodNode := .mk i none none .zstring

def wNever (i : Nat) : ZodNode := .mk i none none .znever

def wBase : ZodNode :=
  .mk 10 (some "obj1") none (.zobject [("a", wStr 11)] .strip (wNever 12) none)

def wExt : ZodNode :=
  .mk 13 none none
    (.zobject [("a", wStr 11), ("b", wStr 14)] .strip (wNever 15) (some wBase))

def wStEmpty : SchemaState := ⟨[], [], .output, none⟩

def wStInProg : SchemaState := ⟨[(10, ⟨"obj1", false, none, none⟩)], ["p"], .output, none⟩

def wExtFrag : SchemaObject :=
  .mk (some "object") (some [("b", leafObj "string")]) (some ["b"]) none none none

def wCompEffect : Effect := ⟨.componentKind, none, 13, ["p"]⟩

def wDefault : ZodNode := .mk 2 none none (.zdefault (wStr 3))

def wStInput : SchemaState := ⟨[], [], .input, none⟩

def wDefEffect : Effect := ⟨.schemaKind, some .input, 2, ["property: a"]⟩

/-- Predicate over old-registry errors: every unrecognized-variant error was
produced for a node whose variant has no dispatcher arm. -/
def OldApi.errFromUnmatched : OldApi.OldError → Prop
  | .unknownSchema v _ => v = "ZodNever" ∨ v = "ZodUndefined" ∨ v = "ZodCustom"
  | _ => True

theorem effList_flattenEffects (l : List (Option (List Effect))) :
    effList (flattenEffects l) = joinEff l := by
  simp only [flattenEffects, effList, joinEff]
  split
  · next h => rw [List.isEmpty_iff] at h; simp [h]
  · rfl

theorem joinEff_nil : joinEff [] = [] := rfl

theorem joinEff_cons (x : Option (List Effect)) (l : List (Option (List Effect))) :
    joinEff (x :: l) = effList x ++ joinEff l := by
  cases x <;> simp [joinEff, effList]

theorem lookup_setAssoc {α β : Type} [BEq α] [LawfulBEq α]
    (l : List (α × β)) (k : α) (v : β) :
    List.lookup k (setAssoc l k v) = some v := by
  unfold setAssoc
  split
  · next h =>
    induction l with
    | nil => simp [List.lookup] at h
    | cons p t ih =>
      by_cases hk : p.1 == k
      · simp only [List.map_cons, hk, if_pos]
        simp [List.lookup]
      · simp only [List.map_cons, hk, if_neg, Bool.false_eq_true, not_false_iff]
        have hne : p.1 ≠ k := by simpa using hk
        have hk2 : (k == p.1) = false := beq_eq_false_iff_ne.mpr (Ne.symm hne)
        simp only [List.lookup, hk2] at h ⊢
        exact ih h
  · next h =>
    induction l with
    | nil => simp [List.lookup]
    | cons p t ih =>
      by_cases hk : k == p.1
      · exfalso
        apply h
        simp [List.lookup, hk]
      · simp only [List.cons_append, List.lookup, hk] at h ⊢
        exact ih h

theorem isOptionalSchemaCore_fst (n : ZodNode) (p : List String) (m : Mode) :
    (isOptionalSchemaCore n p m).1 = fieldOptional n m := by
  cases n with
  | mk i r t d => cases d <;> rfl

theorem mapRequiredGo_fst (path : List String) (m : Mode) :
    ∀ (shape : List (String × ZodNode)) (acc : List String × List (List Effect)),
      (mapRequiredGo path m shape acc).1 =
        acc.1 ++ (shape.filter (fun kv => !(fieldOptional kv.2 m))).map Prod.fst := by
  intro shape
  induction shape with
  | nil => intro acc; simp [mapRequiredGo]
  | cons kv rest ih =>
    intro acc
    simp only [mapRequiredGo, ih, List.filter_cons, isOptionalSchemaCore_fst]
    by_cases hopt : fieldOptional kv.2 m
    · simp [hopt]
    · simp [hopt]

theorem mapRequiredCore_fst (shape : List (String × ZodNode)) (path : List String) (m : Mode) :
    (mapRequiredCore shape path m).1 =
      (shape.filter (fun kv => !(fieldOptional kv.2 m))).map Prod.fst := by
  simp [mapRequiredCore, mapRequiredGo_fst]

theorem mapPropertiesGo_keys :
    ∀ (shape : List (String × ZodNode)) (fuel : Nat) (st : SchemaState)
      (pm : PropertyMap) (reg : ComponentsMap),
      mapPropertiesGo fuel shape st = some (pm, reg) →
      pm.properties.map Prod.fst =
        (shape.filter (fun kv => !(isNeverN kv.2 || isUndefN kv.2))).map Prod.fst := by
  intro shape
  induction shape with
  | nil =>
    intro fuel st pm reg h
    cases fuel with
    | zero => simp [mapPropertiesGo] at h
    | succ f =>
      simp only [mapPropertiesGo, Option.some.injEq, Prod.mk.injEq] at h
      obtain ⟨h1, _⟩ := h
      subst h1
      simp
  | cons kv rest ih =>
    intro fuel st pm reg h
    cases fuel with
    | zero => simp [mapPropertiesGo] at h
    | succ f =>
      obtain ⟨k, v⟩ := kv
      simp only [mapPropertiesGo] at h
      cases hs : (isNeverN v || isUndefN v) with
      | true =>
        rw [hs] at h
        simp only [if_pos] at h
        have := ih f st pm reg h
        simp only [List.filter_cons, hs]
        simpa using this
      | false =>
        rw [hs] at h
        simp only [Bool.false_eq_true, if_neg, not_false_iff] at h
        split at h
        · simp at h
        · rename_i p reg1 hc
          split at h
          · simp at h
          · rename_i pm2 reg2 hg
            simp only [Option.some.injEq, Prod.mk.injEq] at h
            obtain ⟨h1, _⟩ := h
            subst h1
            have := ih f _ pm2 reg2 hg
            simp only [List.filter_cons, hs, List.map_cons]
            simpa using this

theorem mapProperties_none_iff (fuel : Nat) (shape : List (String × ZodNode))
    (st : SchemaState) (props : Option PropertyMap) (reg : ComponentsMap)
    (h : mapProperties (fuel+1) shape st = some (props, reg)) :
    props = none ↔ shape = [] := by
  simp only [mapProperties] at h
  cases hs : shape.isEmpty with
  | true =>
    rw [hs] at h
    simp only [if_pos] at h
    simp only [Option.some.injEq, Prod.mk.injEq] at h
    obtain ⟨h1, _⟩ := h
    subst h1
    simp [List.isEmpty_iff.mp hs]
  | false =>
    rw [hs] at h
    simp only [Bool.false_eq_true, if_neg, not_false_iff] at h
    cases hg : mapPropertiesGo fuel shape st with
    | none => rw [hg] at h; simp at h
    | some pr =>
      rw [hg] at h
      simp only [Option.some.injEq, Prod.mk.injEq] at h
      obtain ⟨h1, _⟩ := h
      subst h1
      constructor
      · intro hc; cases hc
      · intro hc
        rw [hc] at hs
        simp [List.isEmpty_iff] at hs

theorem fromShape_inv {fuel : Nat} {shape : List (String × ZodNode)}
    {opts : AdditionalPropertyOptions} {st : SchemaState} {res : Schema}
    {reg : ComponentsMap}
    (h : createObjectSchemaFromShape (fuel+1) shape opts st = some (res, reg)) :
    ∃ props reg1 apo reg2,
      mapProperties fuel shape st = some (props, reg1) ∧
      ((isNeverN opts.catchAll = true ∧ apo = (none : Option Schema) ∧ reg2 = reg1) ∨
        (isNeverN opts.catchAll = false ∧ ∃ ap, apo = some ap ∧
          createSchemaObject fuel opts.catchAll { st with schemas := reg1 }
            ["additional properties"] = some (ap, reg2))) ∧
      reg = reg2 ∧
      res = { stype := .schemaType,
              schema := SchemaObject.mk (some "object")
                (props.map (fun pm => pm.properties))
                (if (mapRequired shape st).1.isEmpty then none
                 else some (mapRequired shape st).1)
                (match apo with
                 | some ap => some (Sum.inr ap.schema)
                 | none =>
                   if opts.unknownKeys = .strict then some (Sum.inl false) else none)
                none none,
              effects := flattenEffects
                ((match props with | some pm => pm.effects | none => []) ++
                  [apo.bind (fun ap => ap.effects), (mapRequired shape st).2]) } := by
  simp only [createObjectSchemaFromShape] at h
  cases hm : mapProperties fuel shape st with
  | none => rw [hm] at h; simp at h
  | some pr =>
    obtain ⟨props, reg1⟩ := pr
    rw [hm] at h
    cases hcn : isNeverN opts.catchAll with
    | true =>
      rw [hcn] at h
      simp only [if_pos] at h
      simp only [Option.some.injEq, Prod.mk.injEq] at h
      obtain ⟨h1, h2⟩ := h
      exact ⟨props, reg1, none, reg1, rfl, Or.inl ⟨rfl, rfl, rfl⟩, h2.symm, h1.symm⟩
    | false =>
      rw [hcn] at h
      simp only [Bool.false_eq_true, if_neg, not_false_iff] at h
      cases ha : createSchemaObject fuel opts.catchAll { st with schemas := reg1 }
          ["additional properties"] with
      | none => rw [ha] at h; simp at h
      | some apr =>
        obtain ⟨ap, reg2⟩ := apr
        rw [ha] at h
        simp only [Option.some.injEq, Prod.mk.injEq] at h
        obtain ⟨h1, h2⟩ := h
        exact ⟨props, reg1, some ap, reg2, rfl, Or.inr ⟨rfl, ap, rfl, ha⟩,
          h2.symm, h1.symm⟩

theorem joinEff_append (a b : List (Option (List Effect))) :
    joinEff (a ++ b) = joinEff a ++ joinEff b := by
  simp [joinEff, List.filterMap_append]

theorem withAllOf_allOfL (l : List SchemaObject) (s : SchemaObject)
    (h : s.allOfL = none) : (withAllOf l s).allOfL = some l := by
  cases s with
  | mk t p r a ao rf =>
    simp only [SchemaObject.allOfL] at h
    subst h
    rfl

theorem withAllOf_ty (l : List SchemaObject) (s : SchemaObject) :
    (withAllOf l s).ty = s.ty := by
  cases s with
  | mk t p r a ao rf => cases ao <;> rfl

theorem withAllOf_effFree (l : List SchemaObject) (s : SchemaObject) :
    (withAllOf l s).props = s.props ∧ (withAllOf l s).req = s.req ∧
      (withAllOf l s).addProps = s.addProps := by
  cases s with
  | mk t p r a ao rf => cases ao <;> exact ⟨rfl, rfl, rfl⟩

theorem fromShape_fields_any {fuel : Nat} {shape : List (String × ZodNode)}
    {opts : AdditionalPropertyOptions} {st : SchemaState} {res : Schema}
    {reg : ComponentsMap}
    (h : createObjectSchemaFromShape fuel shape opts st = some (res, reg)) :
    res.schema.allOfL = none ∧ res.schema.ty = some "object" := by
  cases fuel with
  | zero => simp [createObjectSchemaFromShape] at h
  | succ f =>
    obtain ⟨props, reg1, apo, reg2, _, _, _, hres⟩ := fromShape_inv h
    subst hres
    exact ⟨rfl, rfl⟩

theorem cso_interception {fuel : Nat} {node : ZodNode} {st : SchemaState}
    {sub : List String} {comp : SchemaComponent}
    (hl : List.lookup node.nid st.schemas = some comp) :
    createSchemaObject (fuel+1) node st sub =
      some ({ stype := .refType,
              schema := refOnly (componentRef comp.ref st.refPrefix),
              effects := if comp.complete then none
                else some [{ kind := .componentKind, direction := none,
                             zodId := node.nid, path := st.path ++ sub }] },
            st.schemas) := by
  simp only [createSchemaObject, hl]
  cases hc : comp.complete <;> simp [hc]

theorem lookup_after_base {fuel : Nat} {base : ZodNode} {st : SchemaState}
    {sub : List String} {res : Schema} {reg : ComponentsMap}
    (h : createSchemaObject (fuel+1) base st sub = some (res, reg))
    (hP : (List.lookup base.nid st.schemas).isSome = true ∨ base.refName.isSome = true) :
    (List.lookup base.nid reg).isSome = true := by
  simp only [createSchemaObject] at h
  split at h
  · rename_i comp hl
    split at h <;>
    · simp only [Option.some.injEq, Prod.mk.injEq] at h
      obtain ⟨_, h2⟩ := h
      subst h2
      simp [hl]
  · rename_i hl
    cases hrn : base.refName with
    | some r =>
      rw [hrn] at h
      split at h
      · split at h
        · simp at h
        · rename_i res2 reg2 hd
          simp only [Option.some.injEq, Prod.mk.injEq] at h
          obtain ⟨_, h2⟩ := h
          subst h2
          rw [lookup_setAssoc]
          rfl
      · rename_i heq2
        simp at heq2
    | none =>
      rw [hl] at hP
      rw [hrn] at hP
      simp at hP

theorem ext_isSome_iff (g : Nat) (node base : ZodNode)
    (shape bshape : List (String × ZodNode)) (uk buk : UnknownKeysParam)
    (ca bca : ZodNode) (bext : Option ZodNode) (st : SchemaState)
    (hnode : node.nodeDef = .zobject shape uk ca (some base))
    (hbase : base.nodeDef = .zobject bshape buk bca bext)
    (r : Option Schema) (reg2 : ComponentsMap)
    (hE : createExtendedSchema (g+1) node (some base) st = some (r, reg2)) :
    (r.isSome = true ↔
      (((List.lookup base.nid st.schemas).isSome = true ∨ base.refName.isSome = true) ∧
        buk ≠ .strict ∧ isNeverN bca = true ∧
        (createShapeDiff bshape shape).isSome = true)) ∧
    (∀ s, r = some s →
      (s.schema.allOfL).isSome = true ∧ s.schema.ty = some "object") := by
  simp only [createExtendedSchema] at hE
  by_cases hPb : ((List.lookup base.nid st.schemas).isSome || base.refName.isSome) = true
  · rw [if_pos hPb] at hE
    cases g with
    | zero => simp [createSchemaObject] at hE
    | succ h =>
      cases hbc : createSchemaObject (h+1) base st ["extended schema"] with
      | none => simp only [hbc] at hE; simp at hE
      | some bp =>
        obtain ⟨bres, reg1⟩ := bp
        simp only [hbc] at hE
        have hPor : (List.lookup base.nid st.schemas).isSome = true ∨
            base.refName.isSome = true := by simpa using hPb
        have hccs := lookup_after_base hbc hPor
        obtain ⟨cc, hcc⟩ := Option.isSome_iff_exists.mp hccs
        simp only [hcc] at hE
        simp only [ZodNode.unknownKeysOf, ZodNode.catchallOf, ZodNode.shapeOf,
          hnode, hbase] at hE
        by_cases hQ : buk = UnknownKeysParam.strict ∨ ¬ (isNeverN bca = true)
        · have hdo : createDiffOpts ⟨buk, bca⟩ ⟨uk, ca⟩ = none := by
            simp only [createDiffOpts]
            rw [if_pos]
            simpa using hQ
          simp only [hdo] at hE
          simp only [Option.some.injEq, Prod.mk.injEq] at hE
          obtain ⟨h1, _⟩ := hE
          subst h1
          constructor
          · simp only [Option.isSome_none, Bool.false_eq_true, false_iff]
            intro hR
            rcases hQ with hq | hq
            · exact hR.2.1 hq
            · exact hq hR.2.2.1
          · intro s hsome; cases hsome
        · push_neg at hQ
          obtain ⟨hstrict, hnever⟩ := hQ
          have hdo : createDiffOpts ⟨buk, bca⟩ ⟨uk, ca⟩ = some ⟨uk, ca⟩ := by
            simp only [createDiffOpts]
            rw [if_neg]
            simp [hstrict, hnever]
          simp only [hdo] at hE
          cases hsd : createShapeDiff bshape shape with
          | none =>
            simp only [hsd] at hE
            simp only [Option.some.injEq, Prod.mk.injEq] at hE
            obtain ⟨h1, _⟩ := hE
            subst h1
            constructor
            · simp only [Option.isSome_none, Bool.false_eq_true, false_iff]
              intro hR
              exact hR.2.2.2
            · intro s hsome; cases hsome
          | some dS =>
            simp only [hsd] at hE
            cases hfs : createObjectSchemaFromShape (h+1) dS ⟨uk, ca⟩
                { st with schemas := reg1 } with
            | none => simp only [hfs] at hE; simp at hE
            | some ep =>
              obtain ⟨ext, regE⟩ := ep
              simp only [hfs] at hE
              simp only [Option.some.injEq, Prod.mk.injEq] at hE
              obtain ⟨h1, _⟩ := hE
              subst h1
              have hff := fromShape_fields_any hfs
              constructor
              · simp only [Option.isSome_some, true_iff]
                exact ⟨hPor, hstrict, hnever, trivial⟩
              · intro s hsome
                simp only [Option.some.injEq] at hsome
                subst hsome
                constructor
                · rw [withAllOf_allOfL _ _ hff.1]
                  rfl
                · rw [withAllOf_ty]
                  exact hff.2
  · rw [if_neg hPb] at hE
    have hPf : (List.lookup base.nid st.schemas).isSome = false ∧
        base.refName.isSome = false := by
      constructor
      · cases hx : (List.lookup base.nid st.schemas).isSome
        · rfl
        · exact absurd (by simp [hx]) hPb
      · cases hx : base.refName.isSome
        · rfl
        · exact absurd (by simp [hx]) hPb
    have hlk : List.lookup base.nid st.schemas = none :=
      Option.not_isSome_iff_eq_none.mp (by simp [hPf.1])
    simp only [hlk] at hE
    simp only [Option.some.injEq, Prod.mk.injEq] at hE
    obtain ⟨h1, _⟩ := hE
    subst h1
    constructor
    · simp only [Option.isSome_none, Bool.false_eq_true, false_iff]
      intro hR
      rcases hR.1 with hq | hq
      · rw [hPf.1] at hq; cases hq
      · rw [hPf.2] at hq; cases hq
    · intro s hsome; cases hsome

/-- C1: for an object node declaring an extension base, the synthesized
fragment carries an allOf entry exactly when the base already is, or (having a
registry name) becomes, a registry entry, the base's unknown-keys policy is
not strict, the base's catch-all is the never sentinel, and the shape diff
succeeds (every shared field key maps to the identity-same node in base and
extension); otherwise the result is the full flat object fragment with no
allOf, and in every case the fragment is of object type. -/
theorem c1_extension_allOf_iff (fuel : Nat) (node base : ZodNode)
    (shape bshape : List (String × ZodNode)) (uk buk : UnknownKeysParam)
    (ca bca : ZodNode) (bext : Option ZodNode) (st : SchemaState)
    (hnode : node.nodeDef = .zobject shape uk ca (some base))
    (hbase : base.nodeDef = .zobject bshape buk bca bext)
    (hs : (createObjectSchema fuel node st).isSome = true) :
    ((createObjectSchema fuel node st).map (fun p => (p.1.schema.allOfL).isSome) =
        some true ↔
      (((List.lookup base.nid st.schemas).isSome = true ∨ base.refName.isSome = true) ∧
        buk ≠ .strict ∧ isNeverN bca = true ∧
        (createShapeDiff bshape shape).isSome = true)) ∧
    (createObjectSchema fuel node st).map (fun p => p.1.schema.ty) =
      some (some "object") := by
  cases fuel with
  | zero => simp [createObjectSchema] at hs
  | succ f =>
    obtain ⟨p, hres⟩ := Option.isSome_iff_exists.mp hs
    obtain ⟨res, regF⟩ := p
    rw [hres]
    have hres2 := hres
    simp only [createObjectSchema, hnode] at hres2
    cases f with
    | zero => simp [createExtendedSchema] at hres2
    | succ g =>
      cases hE : createExtendedSchema (g+1) node (some base) st with
      | none => simp only [hE] at hres2; simp at hres2
      | some ep =>
        obtain ⟨r, reg1⟩ := ep
        have hchar := ext_isSome_iff g node base shape bshape uk buk ca bca bext st
          hnode hbase r reg1 hE
        cases r with
        | some s =>
          simp only [hE] at hres2
          simp only [Option.some.injEq, Prod.mk.injEq] at hres2
          obtain ⟨h1, _⟩ := hres2
          subst h1
          have hfields := hchar.2 s rfl
          constructor
          · simp only [Option.map_some']
            rw [hfields.1]
            simp only [Option.some.injEq, true_iff]
            exact hchar.1.mp rfl
          · simp only [Option.map_some']
            rw [hfields.2]
        | none =>
          simp only [hE] at hres2
          have hflat := fromShape_fields_any hres2
          constructor
          · simp only [Option.map_some']
            rw [hflat.1]
            simp only [Option.isSome_none, Option.some.injEq, Bool.false_eq_true,
              false_iff]
            intro hR
            have := hchar.1.mpr hR
            simp at this
          · simp only [Option.map_some']
            rw [hflat.2]

/-- C9: with the diff conditions satisfied, an extension over a base whose
registry entry is still in-progress produces a fragment that still carries the
allOf reference to the base, and its effect list starts with a component-kind
effect at the current traversal path (standing in for the base's unavailable
effects) followed by the diff fragment's effects; when the base entry is
complete, the base's stored effects are concatenated instead. -/
theorem c9_in_progress_extension (fuel : Nat) (node base : ZodNode)
    (st : SchemaState) (cc : SchemaComponent) (dOpts : AdditionalPropertyOptions)
    (dShape : List (String × ZodNode)) (ext : Schema) (reg2 : ComponentsMap)
    (hcc : List.lookup base.nid st.schemas = some cc)
    (hdo : createDiffOpts ⟨base.unknownKeysOf, base.catchallOf⟩
      ⟨node.unknownKeysOf, node.catchallOf⟩ = some dOpts)
    (hds : createShapeDiff base.shapeOf node.shapeOf = some dShape)
    (hext : createObjectSchemaFromShape (fuel+1) dShape dOpts st = some (ext, reg2)) :
    (cc.complete = false →
      (createExtendedSchema (fuel+2) node (some base) st =
        some (some
          { stype := SchemaResultKind.schemaType,
            schema := withAllOf [refOnly (componentRef cc.ref st.refPrefix)] ext.schema,
            effects := flattenEffects
              [some [], some [⟨EffectKind.componentKind, none, node.nid, st.path⟩],
                ext.effects] }, reg2)) ∧
      (withAllOf [refOnly (componentRef cc.ref st.refPrefix)] ext.schema).allOfL =
        some [refOnly (componentRef cc.ref st.refPrefix)] ∧
      effList (flattenEffects
          [some [], some [⟨EffectKind.componentKind, none, node.nid, st.path⟩],
            ext.effects]) =
        ⟨EffectKind.componentKind, none, node.nid, st.path⟩ :: effList ext.effects) ∧
    (cc.complete = true →
      (createExtendedSchema (fuel+2) node (some base) st =
        some (some
          { stype := SchemaResultKind.schemaType,
            schema := withAllOf [refOnly (componentRef cc.ref st.refPrefix)] ext.schema,
            effects := flattenEffects [cc.effects, some [], ext.effects] }, reg2)) ∧
      effList (flattenEffects [cc.effects, some [], ext.effects]) =
        effList cc.effects ++ effList ext.effects) := by
  have hext' : createObjectSchemaFromShape (fuel+1) dShape dOpts
      { st with schemas := st.schemas } = some (ext, reg2) := hext
  have hbase := @cso_interception fuel base st ["extended schema"] cc hcc
  have hP : ((List.lookup base.nid st.schemas).isSome || base.refName.isSome) = true := by
    simp [hcc]
  have hmain : createExtendedSchema (fuel+2) node (some base) st =
      some (some
        { stype := SchemaResultKind.schemaType,
          schema := withAllOf [refOnly (componentRef cc.ref st.refPrefix)] ext.schema,
          effects := flattenEffects
            [ (if cc.complete then cc.effects else some []),
              (if cc.complete then some []
               else some [⟨EffectKind.componentKind, none, node.nid, st.path⟩]),
              ext.effects ] }, reg2) := by
    simp only [createExtendedSchema]
    rw [if_pos hP]
    simp only [hbase, hcc, hdo, hds, hext']
  constructor
  · intro hc
    rw [hc] at hmain
    simp only [Bool.false_eq_true, if_false] at hmain
    refine ⟨hmain, ?_, ?_⟩
    · exact withAllOf_allOfL _ _ (fromShape_fields_any hext).1
    · rw [effList_flattenEffects]
      simp [joinEff_cons, joinEff_nil, effList]
  · intro hc
    rw [hc] at hmain
    simp only [if_true] at hmain
    refine ⟨hmain, ?_⟩
    rw [effList_flattenEffects]
    simp [joinEff_cons, joinEff_nil, effList]

/-- Witness for c9_in_progress_extension: an extension whose base entry is
in-progress yields the allOf fragment with a component-kind effect. -/
theorem c9_witness :
    createExtendedSchema 7 wExt (some wBase) wStInProg =
      some (some
        { stype := SchemaResultKind.schemaType,
          schema := withAllOf [refOnly (componentRef "obj1" none)] wExtFrag,
          effects := flattenEffects [some [], some [wCompEffect],
            (none : Option (List Effect))] },
        [(10, ⟨"obj1", false, none, none⟩)]) :=
  ((c9_in_progress_extension 5 wExt wBase wStInProg ⟨"obj1", false, none, none⟩
    ⟨.strip, wNever 15⟩ [("b", wStr 14)]
    ⟨.schemaType, wExtFrag, none⟩ [(10, ⟨"obj1", false, none, none⟩)]
    rfl rfl rfl
    (by simp [createObjectSchemaFromShape, mapProperties, mapPropertiesGo, mapRequired,
      mapRequiredCore, mapRequiredGo, isOptionalSchemaCore, flattenEffects, isNeverN,
      isUndefN, ZodNode.nodeDef, createSchemaObject, dispatchSchema, leafObj,
      ZodNode.refName, ZodNode.nid, wStr, wNever, wStInProg, wExtFrag,
      List.lookup])).1 rfl).1

/-- C4: the effect list of an object fragment is the flattening, in order, of
the per-property effect lists, the additional-properties effects and the
required-computation effects; and the effect list of an extension fragment is
the base contribution (its stored effects, or the component-kind placeholder
while in-progress) followed by the diff fragment's effects; nothing is
dropped. -/
theorem c4_effect_concat :
    (∀ fuel shape (opts : AdditionalPropertyOptions) st res reg props reg1,
      createObjectSchemaFromShape (fuel+1) shape opts st = some (res, reg) →
      mapProperties fuel shape st = some (props, reg1) →
      (isNeverN opts.catchAll = true →
        effList res.effects =
          joinEff (match props with | some pm => pm.effects | none => []) ++
            effList (mapRequired shape st).2) ∧
      (isNeverN opts.catchAll = false →
        ∀ ap reg2,
          createSchemaObject fuel opts.catchAll { st with schemas := reg1 }
            ["additional properties"] = some (ap, reg2) →
          effList res.effects =
            joinEff (match props with | some pm => pm.effects | none => []) ++
              effList ap.effects ++ effList (mapRequired shape st).2)) ∧
    (∀ fuel node base st bres reg1 cc dOpts dShape ext reg2 res regF,
      createSchemaObject (fuel+1) base st ["extended schema"] = some (bres, reg1) →
      ((List.lookup base.nid st.schemas).isSome = true ∨ base.refName.isSome = true) →
      List.lookup base.nid reg1 = some cc →
      createDiffOpts ⟨base.unknownKeysOf, base.catchallOf⟩
        ⟨node.unknownKeysOf, node.catchallOf⟩ = some dOpts →
      createShapeDiff base.shapeOf node.shapeOf = some dShape →
      createObjectSchemaFromShape (fuel+1) dShape dOpts { st with schemas := reg1 } =
        some (ext, reg2) →
      createExtendedSchema (fuel+1+1) node (some base) st = some (some res, regF) →
      effList res.effects =
        (if cc.complete then effList cc.effects
         else [⟨EffectKind.componentKind, none, node.nid, st.path⟩]) ++
          effList ext.effects) := by
  constructor
  · intro fuel shape opts st res reg props reg1 h hm
    obtain ⟨props0, reg10, apo, reg20, hm0, hap, hreg, hres⟩ := fromShape_inv h
    rw [hm0] at hm
    simp only [Option.some.injEq, Prod.mk.injEq] at hm
    obtain ⟨hp1, hp2⟩ := hm
    subst hp1
    subst hp2
    subst hres
    constructor
    · intro hcn
      rcases hap with ⟨_, hapo, _⟩ | ⟨hcf, _⟩
      · subst hapo
        dsimp only
        rw [effList_flattenEffects, joinEff_append]
        simp [joinEff_cons, joinEff_nil, effList]
      · rw [hcn] at hcf; cases hcf
    · intro hcn ap reg2 hcall
      rcases hap with ⟨hct, _, _⟩ | ⟨_, ap0, hapo, hcall0⟩
      · rw [hcn] at hct; cases hct
      · subst hapo
        rw [hcall0] at hcall
        simp only [Option.some.injEq, Prod.mk.injEq] at hcall
        obtain ⟨ha1, _⟩ := hcall
        subst ha1
        dsimp only
        rw [effList_flattenEffects, joinEff_append]
        simp [joinEff_cons, joinEff_nil, effList, List.append_assoc]
  · intro fuel node base st bres reg1 cc dOpts dShape ext reg2 res regF
      hbc hP hcc hdo hds hextc hE
    have hPb : ((List.lookup base.nid st.schemas).isSome || base.refName.isSome)
        = true := by
      rcases hP with hx | hx <;> simp [hx]
    simp only [createExtendedSchema] at hE
    rw [if_pos hPb] at hE
    simp only [hbc, hcc, hdo, hds, hextc] at hE
    simp only [Option.some.injEq, Prod.mk.injEq] at hE
    obtain ⟨h1, _⟩ := hE
    have hres : res =
        { stype := SchemaResultKind.schemaType,
          schema := withAllOf [refOnly (componentRef cc.ref st.refPrefix)] ext.schema,
          effects := flattenEffects
            [ (if cc.complete then cc.effects else some []),
              (if cc.complete then some []
               else some [⟨EffectKind.componentKind, none, node.nid, st.path⟩]),
              ext.effects ] } := h1.symm
    subst hres
    dsimp only
    rw [effList_flattenEffects]
    cases hcState : cc.complete <;>
      simp [joinEff_cons, joinEff_nil, effList]

/-- Witness for c4_effect_concat: a default-wrapped field in input mode whose
required-computation effect survives into the object fragment's effect list. -/
theorem c4_witness :
    effList (some [wDefEffect]) =
      joinEff [(none : Option (List Effect))] ++
        effList (mapRequired [("a", wDefault)] wStInput).2 :=
  ((c4_effect_concat.1 7 [("a", wDefault)] ⟨.strip, wNever 5⟩ wStInput
    ⟨.schemaType,
      SchemaObject.mk (some "object") (some [("a", leafObj "string")]) none none
        none none, some [wDefEffect]⟩
    [] (some ⟨[("a", leafObj "string")], [none]⟩) []
    (by simp [createObjectSchemaFromShape, mapProperties, mapPropertiesGo, mapRequired,
      mapRequiredCore, mapRequiredGo, isOptionalSchemaCore, flattenEffects, isNeverN,
      isUndefN, ZodNode.nodeDef, createSchemaObject, dispatchSchema, leafObj,
      ZodNode.refName, ZodNode.nid, wStr, wNever, wDefault, wStInput, wDefEffect,
      List.lookup])
    (by simp [mapProperties, mapPropertiesGo, isNeverN, isUndefN, ZodNode.nodeDef,
      createSchemaObject, dispatchSchema, leafObj, ZodNode.refName, ZodNode.nid,
      wStr, wNever, wDefault, wStInput, List.lookup])).1 rfl)

/-- Witness for c1_extension_allOf_iff: a registered base with a pure-addition
extension yields an allOf fragment. -/
theorem c1_witness :
    (createObjectSchema 12 wExt wStEmpty).map (fun p => (p.1.schema.allOfL).isSome) =
      some true :=
  (c1_extension_allOf_iff 12 wExt wBase [("a", wStr 11), ("b", wStr 14)]
    [("a", wStr 11)] .strip .strip (wNever 15) (wNever 12) none wStEmpty rfl rfl
    (by decide)).1.mpr ⟨Or.inr rfl, by decide, rfl, by decide⟩

theorem old_error_variants : ∀ fuel : Nat,
    (∀ n c e c2, OldApi.createSchema fuel n c = some (.error e, c2) →
      OldApi.errFromUnmatched e) ∧
    (∀ shape uk ca c e c2, OldApi.createObjectSchema fuel shape uk ca c = some (.error e, c2) →
      OldApi.errFromUnmatched e) ∧
    (∀ shape c e c2, OldApi.oldProps fuel shape c = some (.error e, c2) →
      OldApi.errFromUnmatched e) ∧
    (∀ n c e c2, OldApi.createSchemaWithMetadata fuel n c = some (.error e, c2) →
      OldApi.errFromUnmatched e) ∧
    (∀ n r c e c2, OldApi.createRegisteredSchema fuel n r c = some (.error e, c2) →
      OldApi.errFromUnmatched e) ∧
    (∀ n c e c2, OldApi.createSchemaOrRef fuel n c = some (.error e, c2) →
      OldApi.errFromUnmatched e) := by
  intro fuel
  induction fuel with
  | zero =>
    refine ⟨?_, ?_, ?_, ?_, ?_, ?_⟩ <;>
      · intros
        simp_all [OldApi.createSchema, OldApi.createObjectSchema, OldApi.oldProps,
          OldApi.createSchemaWithMetadata, OldApi.createRegisteredSchema,
          OldApi.createSchemaOrRef]
  | succ f ih =>
    obtain ⟨ihD, ihO, ihP, ihM, ihR, ihS⟩ := ih
    refine ⟨?_, ?_, ?_, ?_, ?_, ?_⟩
    · intro n c e c2 h
      obtain ⟨i, rn, mt, d⟩ := n
      cases d with
      | zstring => simp [OldApi.createSchema, ZodNode.nodeDef] at h
      | znumber => simp [OldApi.createSchema, ZodNode.nodeDef] at h
      | zboolean => simp [OldApi.createSchema, ZodNode.nodeDef] at h
      | zoptional inner =>
        simp only [OldApi.createSchema, ZodNode.nodeDef] at h
        exact ihS inner c e c2 h
      | zdefault inner =>
        simp only [OldApi.createSchema, ZodNode.nodeDef] at h
        exact ihS inner c e c2 h
      | zobject shape uk ca eb =>
        simp only [OldApi.createSchema, ZodNode.nodeDef] at h
        exact ihO shape uk ca c e c2 h
      | znever =>
        simp only [OldApi.createSchema, ZodNode.nodeDef, ZodNode.manualType] at h
        cases mt with
        | none =>
          simp only [Option.some.injEq, Prod.mk.injEq, Except.error.injEq] at h
          obtain ⟨h1, _⟩ := h
          subst h1
          simp [OldApi.errFromUnmatched, OldApi.variantName, ZodNode.nodeDef]
        | some t => simp at h
      | zundefined =>
        simp only [OldApi.createSchema, ZodNode.nodeDef, ZodNode.manualType] at h
        cases mt with
        | none =>
          simp only [Option.some.injEq, Prod.mk.injEq, Except.error.injEq] at h
          obtain ⟨h1, _⟩ := h
          subst h1
          simp [OldApi.errFromUnmatched, OldApi.variantName, ZodNode.nodeDef]
        | some t => simp at h
      | zcustom =>
        simp only [OldApi.createSchema, ZodNode.nodeDef, ZodNode.manualType] at h
        cases mt with
        | none =>
          simp only [Option.some.injEq, Prod.mk.injEq, Except.error.injEq] at h
          obtain ⟨h1, _⟩ := h
          subst h1
          simp [OldApi.errFromUnmatched, OldApi.variantName, ZodNode.nodeDef]
        | some t => simp at h
    · intro shape uk ca c e c2 h
      simp only [OldApi.createObjectSchema] at h
      split at h
      · simp at h
      · rename_i e1 c1 hp
        simp only [Option.some.injEq, Prod.mk.injEq, Except.error.injEq] at h
        obtain ⟨h1, _⟩ := h
        subst h1
        exact ihP shape c e1 c1 hp
      · rename_i ps c1 hp
        split at h
        · simp at h
        · rename_i e1 c21 hs
          simp only [Option.some.injEq, Prod.mk.injEq, Except.error.injEq] at h
          obtain ⟨h1, _⟩ := h
          subst h1
          split at hs
          · simp at hs
          · split at hs
            · simp at hs
            · rename_i e2 c3 hcall
              simp only [Option.some.injEq, Prod.mk.injEq, Except.error.injEq] at hs
              obtain ⟨h2, _⟩ := hs
              subst h2
              exact ihS ca c1 e2 c3 hcall
            · simp at hs
        · rename_i apo c21 hs
          simp at h
    · intro shape c e c2 h
      cases shape with
      | nil => simp [OldApi.oldProps] at h
      | cons kv rest =>
        obtain ⟨k, v⟩ := kv
        simp only [OldApi.oldProps] at h
        split at h
        · exact ihP rest c e c2 h
        · split at h
          · simp at h
          · rename_i e1 c1 hv
            simp only [Option.some.injEq, Prod.mk.injEq, Except.error.injEq] at h
            obtain ⟨h1, _⟩ := h
            subst h1
            exact ihS v c e1 c1 hv
          · rename_i s c1 hv
            split at h
            · simp at h
            · rename_i e1 c21 hr
              simp only [Option.some.injEq, Prod.mk.injEq, Except.error.injEq] at h
              obtain ⟨h1, _⟩ := h
              subst h1
              exact ihP rest c1 e1 c21 hr
            · rename_i ps c21 hr
              simp at h
    · intro n c e c2 h
      simp only [OldApi.createSchemaWithMetadata] at h
      exact ihD n _ e c2 h
    · intro n r c e c2 h
      simp only [OldApi.createRegisteredSchema] at h
      split at h
      · rename_i s zid hl
        split at h
        · simp only [Option.some.injEq, Prod.mk.injEq, Except.error.injEq] at h
          obtain ⟨h1, _⟩ := h
          subst h1
          simp [OldApi.errFromUnmatched]
        · simp at h
      · rename_i hl
        split at h
        · simp at h
        · rename_i e1 c1 hm
          simp only [Option.some.injEq, Prod.mk.injEq, Except.error.injEq] at h
          obtain ⟨h1, _⟩ := h
          subst h1
          exact ihM n c e1 c1 hm
        · rename_i s c1 hm
          split at h
          · simp only [Option.some.injEq, Prod.mk.injEq, Except.error.injEq] at h
            obtain ⟨h1, _⟩ := h
            subst h1
            simp [OldApi.errFromUnmatched]
          · simp at h
    · intro n c e c2 h
      simp only [OldApi.createSchemaOrRef] at h
      split at h
      · rename_i r hr
        exact ihR n r c e c2 h
      · exact ihM n c e c2 h

/-- C6: registering a node under a name already bound to a different node
identity is a hard duplicate-registration error, and the registry (including
the existing binding) is returned unchanged by the failed attempt. -/
theorem c6_duplicate_ref_error (fuel : Nat) (n : ZodNode) (r : String)
    (c : OldApi.ComponentsOld) (s : SchemaObject) (zid : Nat)
    (hl : List.lookup r c.schema = some (s, zid)) (hne : zid ≠ n.nid) :
    OldApi.createRegisteredSchema (fuel+1) n r c =
      some (.error (.duplicateRef r), c) := by
  simp only [OldApi.createRegisteredSchema, hl]
  simp [hne]

/-- Witness for c6_duplicate_ref_error at a concrete registry and node. -/
theorem c6_witness :
    OldApi.createRegisteredSchema 3 (ZodNode.mk 2 none none .zstring) "obj1"
        ⟨[("obj1", (leafObj "string", 1))], 0⟩ =
      some (.error (.duplicateRef "obj1"), ⟨[("obj1", (leafObj "string", 1))], 0⟩) :=
  c6_duplicate_ref_error 2 (ZodNode.mk 2 none none .zstring) "obj1"
    ⟨[("obj1", (leafObj "string", 1))], 0⟩ (leafObj "string") 1 rfl (by decide)

/-- C7: registering the same node identity under the same name a second time
returns the same reference as the first registration and leaves the components
store (its registry entries and its generator-invocation count) unchanged. -/
theorem c7_idempotent_registration (fuel fuel2 : Nat) (n : ZodNode) (r : String)
    (c0 c1 : OldApi.ComponentsOld) (ref1 : SchemaObject)
    (h1 : OldApi.createRegisteredSchema fuel n r c0 = some (.ok ref1, c1)) :
    OldApi.createRegisteredSchema (fuel2+1) n r c1 = some (.ok ref1, c1) := by
  cases fuel with
  | zero => simp [OldApi.createRegisteredSchema] at h1
  | succ f =>
    simp only [OldApi.createRegisteredSchema] at h1 ⊢
    split at h1
    · rename_i s zid hl
      split at h1
      · simp at h1
      · rename_i hz
        simp only [Option.some.injEq, Prod.mk.injEq, Except.ok.injEq] at h1
        obtain ⟨hr1, hc1⟩ := h1
        subst hc1
        rw [hl]
        simp only [hz, if_neg, not_false_iff]
        rw [hr1]
    · rename_i hl
      split at h1
      · simp at h1
      · simp at h1
      · rename_i s c1' hm
        split at h1
        · simp at h1
        · rename_i hrefs
          simp only [Option.some.injEq, Prod.mk.injEq, Except.ok.injEq] at h1
          obtain ⟨hr1, hc1⟩ := h1
          subst hc1
          have : List.lookup r (OldApi.ComponentsOld.mk
              (setAssoc c1'.schema r (s, n.nid)) c1'.genCount).schema = some (s, n.nid) := by
            simpa using lookup_setAssoc c1'.schema r (s, n.nid)
          rw [this]
          simp only [ne_eq, not_true_eq_false, if_neg, not_false_iff]
          rw [hr1]

/-- Witness for c7_idempotent_registration: a fresh registration followed by a
repeated registration of the same node under the same name. -/
theorem c7_witness :
    OldApi.createRegisteredSchema 5 (ZodNode.mk 3 none none .zstring) "s1"
        ⟨[("s1", (leafObj "string", 3))], 1⟩ =
      some (.ok (refOnly (OldApi.createComponentSchemaRef "s1")),
        ⟨[("s1", (leafObj "string", 3))], 1⟩) :=
  c7_idempotent_registration 9 4 (ZodNode.mk 3 none none .zstring) "s1"
    ⟨[], 0⟩ ⟨[("s1", (leafObj "string", 3))], 1⟩
    (refOnly (OldApi.createComponentSchemaRef "s1")) rfl

/-- C8 counterexample: for a node whose variant matches no arm but which
carries a manual-override type, the dispatcher returns the empty fragment,
not the pre-supplied payload (the returned fragment carries no type key at
all, unlike a fragment with the overridden type). -/
theorem c8_counterexample :
    OldApi.createSchema 2 (ZodNode.mk 7 none (some "string") .zcustom) ⟨[], 0⟩ =
      some (.ok emptyObj, ⟨[], 0⟩) ∧
    emptyObj.ty = none ∧ emptyObj ≠ leafObj "string" := by
  refine ⟨rfl, rfl, ?_⟩
  simp [emptyObj, leafObj]

/-- C8 (amended): the dispatcher reports the unrecognized-variant error for a
node exactly when the node's variant matches no generator arm and the node has
no manual-override type; with an override present and no matching arm it
returns the empty fragment (the override content is merged outside the
dispatcher); and a node whose variant matches an arm is never the subject of
an unrecognized-variant error. -/
theorem c8_dispatcher_amended :
    (∀ fuel n c, OldApi.matchesArm n = false → n.manualType = none →
      OldApi.createSchema (fuel+1) n c =
        some (.error (.unknownSchema (OldApi.variantName n) n.nid), c)) ∧
    (∀ fuel n c t, OldApi.matchesArm n = false → n.manualType = some t →
      OldApi.createSchema (fuel+1) n c = some (.ok emptyObj, c)) ∧
    (∀ fuel n c e c2, OldApi.matchesArm n = true →
      OldApi.createSchema fuel n c = some (.error e, c2) →
      e ≠ .unknownSchema (OldApi.variantName n) n.nid) := by
  refine ⟨?_, ?_, ?_⟩
  · intro fuel n c hm hmt
    obtain ⟨i, rn, mt, d⟩ := n
    simp only [ZodNode.manualType] at hmt
    subst hmt
    cases d <;> simp_all [OldApi.matchesArm, ZodNode.nodeDef, ZodNode.manualType,
      ZodNode.nid, OldApi.variantName, OldApi.createSchema]
  · intro fuel n c t hm hmt
    obtain ⟨i, rn, mt, d⟩ := n
    simp only [ZodNode.manualType] at hmt
    subst hmt
    cases d <;> simp_all [OldApi.matchesArm, ZodNode.nodeDef, ZodNode.manualType,
      ZodNode.nid, OldApi.variantName, OldApi.createSchema]
  · intro fuel n c e c2 hm h heq
    subst heq
    have hinv := (old_error_variants fuel).1 n c _ c2 h
    obtain ⟨i, rn, mt, d⟩ := n
    cases d <;>
      simp_all [OldApi.matchesArm, ZodNode.nodeDef, OldApi.errFromUnmatched,
        OldApi.variantName]

theorem mem_filter_keys_iff (P : String × ZodNode → Bool) :
    ∀ (shape : List (String × ZodNode)) (k : String) (v : ZodNode),
      (shape.map Prod.fst).Nodup → (k, v) ∈ shape →
      (k ∈ (shape.filter P).map Prod.fst ↔ P (k, v) = true) := by
  intro shape
  induction shape with
  | nil => intro k v _ hmem; simp at hmem
  | cons hd tl ih =>
    intro k v hnd hmem
    obtain ⟨hd1, hd2⟩ := hd
    simp only [List.map_cons, List.nodup_cons] at hnd
    obtain ⟨hnotin, hndtl⟩ := hnd
    have hsub : ∀ k2, k2 ∈ (tl.filter P).map Prod.fst → k2 ∈ tl.map Prod.fst := by
      intro k2 hk2
      obtain ⟨x, hx, hxk⟩ := List.mem_map.mp hk2
      exact List.mem_map.mpr ⟨x, (List.mem_filter.mp hx).1, hxk⟩
    rcases List.mem_cons.mp hmem with heq | htl
    · obtain ⟨hk, hv⟩ := Prod.mk.injEq .. ▸ heq
      subst hk
      subst hv
      by_cases hp : P (k, v) = true
      · simp only [List.filter_cons, hp, if_pos, List.map_cons]
        simp
      · have hp2 : P (k, v) = false := by
          cases hP : P (k, v)
          · rfl
          · exact absurd hP hp
        simp only [List.filter_cons, hp2, Bool.false_eq_true, if_neg, not_false_iff]
        constructor
        · intro hk2
          exact absurd (hsub k hk2) hnotin
        · intro hk2
          exact hk2.elim
    · have hk1 : k ∈ tl.map Prod.fst := List.mem_map.mpr ⟨(k, v), htl, rfl⟩
      have hne : hd1 ≠ k := fun hc => hnotin (hc ▸ hk1)
      have ihk := ih k v hndtl htl
      by_cases hp : P (hd1, hd2) = true
      · simp only [List.filter_cons, hp, if_pos, List.map_cons]
        rw [List.mem_cons]
        constructor
        · intro hk2
          rcases hk2 with hk2 | hk2
          · exact absurd hk2.symm hne
          · exact ihk.mp hk2
        · intro hk2
          exact Or.inr (ihk.mpr hk2)
      · have hp2 : P (hd1, hd2) = false := by
          cases hP : P (hd1, hd2)
          · rfl
          · exact absurd hP hp
        simp only [List.filter_cons, hp2, Bool.false_eq_true, if_neg, not_false_iff]
        exact ihk

theorem fieldOptional_of_sentinel (v : ZodNode) (m : Mode)
    (h : isNeverN v = true ∨ isUndefN v = true) : fieldOptional v m = true := by
  obtain ⟨i, rn, mt, d⟩ := v
  cases d <;> simp_all [isNeverN, isUndefN, fieldOptional, isOptionalSchemaCore,
    ZodNode.nodeDef]

theorem mapProperties_some_go {fuel : Nat} {shape : List (String × ZodNode)}
    {st : SchemaState} {pm : PropertyMap} {reg : ComponentsMap}
    (h : mapProperties fuel shape st = some (some pm, reg)) :
    ∃ f2, mapPropertiesGo f2 shape st = some (pm, reg) := by
  cases fuel with
  | zero => simp [mapProperties] at h
  | succ f =>
    simp only [mapProperties] at h
    split at h
    · simp at h
    · split at h
      · simp at h
      · rename_i pr hg
        simp only [Option.some.injEq, Prod.mk.injEq] at h
        obtain ⟨h1, h2⟩ := h
        exact ⟨f, by rw [hg, h1, h2]⟩

theorem fragReq_ifEmpty (t : Option String) (p : Option (List (String × SchemaObject)))
    (l : List String) (a : Option (Bool ⊕ SchemaObject)) (ao : Option (List SchemaObject))
    (r : Option String) :
    fragReq (SchemaObject.mk t p (if l.isEmpty then none else some l) a ao r) = l := by
  cases l <;> simp [fragReq, SchemaObject.req]

/-- C2 counterexample: a field whose node is the never sentinel is absent from
the fragment's required list (the key is omitted entirely) although the node
is neither an optional wrapper nor a default wrapper, against the claimed
equivalence. -/
theorem c2_counterexample :
    (createObjectSchemaFromShape 5 [("a", ZodNode.mk 1 none none .znever)]
        ⟨.strip, ZodNode.mk 2 none none .znever⟩ ⟨[], [], .output, none⟩).map
      (fun p => p.1.schema.req) = some none ∧
    isOptionalWrapper (ZodNode.mk 1 none none .znever) = false ∧
    isDefaultWrapper (ZodNode.mk 1 none none .znever) = false :=
  ⟨by decide, rfl, rfl⟩

/-- C2 (amended): for a shape with distinct field names, a field name is
absent from the synthesized fragment's required list exactly when the field's
node is an optional wrapper, a default wrapper while the mode is input, or one
of the never/undefined sentinels (the source's optionality verdict). -/
theorem c2_required_amended (fuel : Nat) (shape : List (String × ZodNode))
    (opts : AdditionalPropertyOptions) (st : SchemaState) (res : Schema)
    (reg : ComponentsMap) (k : String) (v : ZodNode)
    (hnd : (shape.map Prod.fst).Nodup) (hmem : (k, v) ∈ shape)
    (h : createObjectSchemaFromShape (fuel+1) shape opts st = some (res, reg)) :
    (k ∉ fragReq res.schema ↔ fieldOptional v st.mode = true) := by
  obtain ⟨props, reg1, apo, reg2, hm, hap, hreg, hres⟩ := fromShape_inv h
  subst hres
  rw [fragReq_ifEmpty]
  rw [mapRequired, mapRequiredCore_fst]
  rw [mem_filter_keys_iff (fun kv => !(fieldOptional kv.2 st.mode)) shape k v hnd hmem]
  cases hov : fieldOptional v st.mode <;> simp [hov]

/-- Witness for c2_required_amended: an optional-wrapped string field. -/
theorem c2_witness :
    ("a" ∉ fragReq (SchemaObject.mk (some "object")
        (some [("a", leafObj "string")]) none none none none) ↔
      fieldOptional
        (ZodNode.mk 3 none none (.zoptional (ZodNode.mk 4 none none .zstring)))
        Mode.output = true) :=
  c2_required_amended 9
    [("a", ZodNode.mk 3 none none (.zoptional (ZodNode.mk 4 none none .zstring)))]
    ⟨.strip, ZodNode.mk 5 none none .znever⟩ ⟨[], [], .output, none⟩
    ⟨.schemaType, SchemaObject.mk (some "object")
      (some [("a", leafObj "string")]) none none none none, none⟩
    [] "a" (ZodNode.mk 3 none none (.zoptional (ZodNode.mk 4 none none .zstring)))
    (by simp) (by simp)
    (by simp [createObjectSchemaFromShape, mapProperties, mapPropertiesGo, mapRequired,
      mapRequiredCore, mapRequiredGo, isOptionalSchemaCore, flattenEffects, isNeverN,
      isUndefN, ZodNode.nodeDef, createSchemaObject, dispatchSchema, leafObj,
      ZodNode.refName, ZodNode.nid])

/-- C3: a field whose node is the never or undefined sentinel appears neither
among the fragment's property keys nor in its required list. -/
theorem c3_sentinel_omitted (fuel : Nat) (shape : List (String × ZodNode))
    (opts : AdditionalPropertyOptions) (st : SchemaState) (res : Schema)
    (reg : ComponentsMap) (k : String) (v : ZodNode)
    (hnd : (shape.map Prod.fst).Nodup) (hmem : (k, v) ∈ shape)
    (hsent : isNeverN v = true ∨ isUndefN v = true)
    (h : createObjectSchemaFromShape (fuel+1) shape opts st = some (res, reg)) :
    k ∉ fragPropKeys res.schema ∧ k ∉ fragReq res.schema := by
  obtain ⟨props, reg1, apo, reg2, hm, hap, hreg, hres⟩ := fromShape_inv h
  subst hres
  constructor
  · cases props with
    | none => simp [fragPropKeys, SchemaObject.props]
    | some pm =>
      obtain ⟨f2, hg⟩ := mapProperties_some_go hm
      have hkeys := mapPropertiesGo_keys shape f2 st pm reg1 hg
      simp only [fragPropKeys, SchemaObject.props]
      have hred : List.map Prod.fst
            ((Option.map (fun q : PropertyMap => q.properties) (some pm)).getD []) =
          List.map Prod.fst pm.properties := rfl
      rw [hred, hkeys]
      rw [mem_filter_keys_iff (fun kv => !(isNeverN kv.2 || isUndefN kv.2)) shape k v
        hnd hmem]
      rcases hsent with hs | hs <;> simp [hs]
  · rw [fragReq_ifEmpty]
    rw [mapRequired, mapRequiredCore_fst]
    rw [mem_filter_keys_iff (fun kv => !(fieldOptional kv.2 st.mode)) shape k v hnd hmem]
    simp [fieldOptional_of_sentinel v st.mode hsent]

/-- Witness for c3_sentinel_omitted: an undefined-sentinel field next to a
string field. -/
theorem c3_witness :
    ("b" ∉ fragPropKeys (SchemaObject.mk (some "object")
        (some [("a", leafObj "string")]) (some ["a"]) none none none) ∧
     "b" ∉ fragReq (SchemaObject.mk (some "object")
        (some [("a", leafObj "string")]) (some ["a"]) none none none)) :=
  c3_sentinel_omitted 9
    [("a", ZodNode.mk 1 none none .zstring), ("b", ZodNode.mk 2 none none .zundefined)]
    ⟨.strip, ZodNode.mk 5 none none .znever⟩ ⟨[], [], .output, none⟩
    ⟨.schemaType, SchemaObject.mk (some "object") (some [("a", leafObj "string")])
      (some ["a"]) none none none, none⟩
    [] "b" (ZodNode.mk 2 none none .zundefined)
    (by simp) (by simp) (Or.inr rfl)
    (by simp [createObjectSchemaFromShape, mapProperties, mapPropertiesGo, mapRequired,
      mapRequiredCore, mapRequiredGo, isOptionalSchemaCore, flattenEffects, isNeverN,
      isUndefN, ZodNode.nodeDef, createSchemaObject, dispatchSchema, leafObj,
      ZodNode.refName, ZodNode.nid])

/-- C10 counterexample: a nonempty shape whose only field is the never
sentinel produces a fragment whose properties key is present and empty,
against the claimed omission. -/
theorem c10_counterexample :
    (createObjectSchemaFromShape 5 [("a", ZodNode.mk 1 none none .znever)]
        ⟨.strip, ZodNode.mk 2 none none .znever⟩ ⟨[], [], .output, none⟩).map
      (fun p => p.1.schema.props.map (List.map Prod.fst)) = some (some []) ∧
    ([("a", ZodNode.mk 1 none none .znever)] : List (String × ZodNode)) ≠ [] :=
  ⟨by decide, by simp⟩

/-- C10 (amended): the fragment omits the properties key exactly when the
shape has no entries at all (a nonempty shape of sentinels yields an empty
properties object); the required key is omitted exactly when the computed
required list is empty, and an emitted required list is never empty. -/
theorem c10_key_omission_amended (fuel : Nat) (shape : List (String × ZodNode))
    (opts : AdditionalPropertyOptions) (st : SchemaState) (res : Schema)
    (reg : ComponentsMap)
    (h : createObjectSchemaFromShape (fuel+1) shape opts st = some (res, reg)) :
    (res.schema.props = none ↔ shape = []) ∧
    (res.schema.req = none ↔ (mapRequired shape st).1 = []) ∧
    (∀ l, res.schema.req = some l → l ≠ []) := by
  obtain ⟨props, reg1, apo, reg2, hm, hap, hreg, hres⟩ := fromShape_inv h
  subst hres
  refine ⟨?_, ?_, ?_⟩
  · simp only [SchemaObject.props]
    cases fuel with
    | zero => simp [mapProperties] at hm
    | succ f =>
      have := mapProperties_none_iff f shape st props reg1 hm
      cases props <;> simp_all
  · simp only [SchemaObject.req]
    cases hl : (mapRequired shape st).1 <;> simp [hl]
  · intro l hl
    simp only [SchemaObject.req] at hl
    cases he : (mapRequired shape st).1.isEmpty with
    | true => rw [he] at hl; simp at hl
    | false =>
      rw [he] at hl
      simp only [Bool.false_eq_true, if_neg, not_false_iff, Option.some.injEq] at hl
      subst hl
      intro hc
      rw [hc] at he
      simp at he

/-- Witness for c10_key_omission_amended at the all-sentinel shape. -/
theorem c10_witness :
    ((SchemaObject.mk (some "object") (some ([] : List (String × SchemaObject)))
        none none none none).props = none ↔
      ([("a", ZodNode.mk 1 none none .znever)] : List (String × ZodNode)) = []) :=
  (c10_key_omission_amended 4 [("a", ZodNode.mk 1 none none .znever)]
    ⟨.strip, ZodNode.mk 2 none none .znever⟩ ⟨[], [], .output, none⟩
    ⟨.schemaType, SchemaObject.mk (some "object")
      (some ([] : List (String × SchemaObject))) none none none none, none⟩
    [] (by simp [createObjectSchemaFromShape, mapProperties, mapPropertiesGo, mapRequired,
      mapRequiredCore, mapRequiredGo, isOptionalSchemaCore, flattenEffects, isNeverN,
      isUndefN, ZodNode.nodeDef])).1

/-- C5 counterexample: under the strict policy with a non-never catch-all the
fragment's additionalProperties is the synthesized catch-all fragment, not the
boolean false the claim requires for strict. -/
theorem c5_counterexample :
    (createObjectSchemaFromShape 4 [] ⟨.strict, ZodNode.mk 5 none none .zboolean⟩
        ⟨[], [], .output, none⟩).map
      (fun p => p.1.schema.addProps.map (Sum.map id SchemaObject.ty)) =
      some (some (Sum.inr (some "boolean"))) ∧
    (some (some (Sum.inr (some "boolean"))) : Option (Option (Bool ⊕ Option String))) ≠
      some (some (Sum.inl false)) :=
  ⟨by decide, by simp⟩

/-- C5 (amended): when the catch-all is the never sentinel,
additionalProperties is false under the strict policy and absent otherwise;
when the catch-all is not the never sentinel, additionalProperties is the
fragment synthesized from the catch-all node, even under the strict policy. -/
theorem c5_additional_properties_amended (fuel : Nat)
    (shape : List (String × ZodNode)) (opts : AdditionalPropertyOptions)
    (st : SchemaState) (res : Schema) (reg : ComponentsMap)
    (h : createObjectSchemaFromShape (fuel+1) shape opts st = some (res, reg)) :
    (isNeverN opts.catchAll = true →
      res.schema.addProps =
        (if opts.unknownKeys = .strict then some (Sum.inl false) else none)) ∧
    (isNeverN opts.catchAll = false →
      ∀ props reg1 ap reg2,
        mapProperties fuel shape st = some (props, reg1) →
        createSchemaObject fuel opts.catchAll { st with schemas := reg1 }
          ["additional properties"] = some (ap, reg2) →
        res.schema.addProps = some (Sum.inr ap.schema)) := by
  obtain ⟨props0, reg10, apo, reg20, hm, hap, hreg, hres⟩ := fromShape_inv h
  subst hres
  constructor
  · intro hcn
    rcases hap with ⟨_, hapo, _⟩ | ⟨hcf, _⟩
    · subst hapo
      simp [SchemaObject.addProps]
    · rw [hcn] at hcf; cases hcf
  · intro hcn props reg1 ap reg2 hm2 hcall
    rcases hap with ⟨hct, _, _⟩ | ⟨_, ap0, hapo, hcall0⟩
    · rw [hcn] at hct; cases hct
    · subst hapo
      rw [hm] at hm2
      simp only [Option.some.injEq, Prod.mk.injEq] at hm2
      obtain ⟨hp1, hp2⟩ := hm2
      subst hp1
      subst hp2
      rw [hcall0] at hcall
      simp only [Option.some.injEq, Prod.mk.injEq] at hcall
      obtain ⟨ha1, _⟩ := hcall
      subst ha1
      simp [SchemaObject.addProps]

/-- Witness for c5_additional_properties_amended: strict policy with a never
catch-all yields additionalProperties false. -/
theorem c5_witness :
    (SchemaObject.mk (some "object") none none (some (Sum.inl false))
      none none).addProps = some (Sum.inl false) := by
  have := (c5_additional_properties_amended 3 []
    ⟨.strict, ZodNode.mk 5 none none .znever⟩ ⟨[], [], .output, none⟩
    ⟨.schemaType, SchemaObject.mk (some "object") none none (some (Sum.inl false))
      none none, none⟩
    [] (by simp [createObjectSchemaFromShape, mapProperties, mapPropertiesGo, mapRequired,
      mapRequiredCore, mapRequiredGo, isOptionalSchemaCore, flattenEffects, isNeverN,
      isUndefN, ZodNode.nodeDef])).1 rfl
  simpa using this

/-- Witness for c8_dispatcher_amended: a never node without override errors; a
custom node with an override yields the empty fragment. -/
theorem c8_witness :
    OldApi.createSchema 1 (ZodNode.mk 3 none none .znever) ⟨[], 0⟩ =
      some (.error (.unknownSchema "ZodNever" 3), ⟨[], 0⟩) ∧
    OldApi.createSchema 1 (ZodNode.mk 7 none (some "string") .zcustom) ⟨[], 0⟩ =
      some (.ok emptyObj, ⟨[], 0⟩) :=
  ⟨c8_dispatcher_amended.1 0 (ZodNode.mk 3 none none .znever) ⟨[], 0⟩ rfl rfl,
   c8_dispatcher_amended.2.1 0 (ZodNode.mk 7 none (some "string") .zcustom) ⟨[], 0⟩
     "string" rfl rfl⟩

end ZodToOpenapi
